import Mathlib

/-!
Shallow embedding of the name-blocking policy engine of dnscrypt-proxy
(`dnscrypt-proxy/plugin_block_name.go`): the `BlockedNames.check` evaluator,
the query-side plugin `PluginBlockName.Eval`, the response-side CNAME walker
`PluginBlockNameResponse.Eval`, and the rule-file loader `PluginBlockName.Init`.

External collaborators that are not part of the provided source
(`PatternMatcher`, `WeeklyRanges`, `StripTrailingDot`, `StringQuote`, the
`PluginsState` record, the DNS message types and the logging sink) are
modelled from the specification; each such definition carries a doc comment
saying so.  Go strings are Lean `String`s; the string primitives are
re-implemented over `List Char` so that every definition evaluates inside the
kernel.  The ambient wall clock (`time.Now()`) is passed explicitly as a
`now` parameter; the process-terminating `dlog.Fatalf` is modelled as the
`Except.error` outcome.
-/

/-- Lowercasing of a string, character by character (models `strings.ToLower`
on the ASCII domain names the engine handles). -/
def strLower (s : String) : String :=
  ⟨s.data.map Char.toLower⟩

/-- Modelled from the spec: `StripTrailingDot` removes the trailing `.`
(root label) from a DNS name if one is present. -/
def StripTrailingDot (s : String) : String :=
  match s.data.getLast? with
  | some c => if c = '.' then ⟨s.data.dropLast⟩ else s
  | none => s

/-- Whitespace trimming from both ends of a character list (models
`strings.TrimFunc(·, unicode.IsSpace)`). -/
def trimChars (l : List Char) : List Char :=
  ((l.dropWhile Char.isWhitespace).reverse.dropWhile Char.isWhitespace).reverse

/-- Whitespace trimming from both ends of a string. -/
def strTrim (s : String) : String :=
  ⟨trimChars s.data⟩

/-- Splitting a character list at every occurrence of a separator character
(models `strings.Split` for a one-character separator); `n` separators give
`n + 1` parts. -/
def splitChar (sep : Char) : List Char → List (List Char)
  | [] => [[]]
  | c :: cs =>
    let r := splitChar sep cs
    if c = sep then [] :: r
    else
      match r with
      | [] => [[c]]
      | g :: gs => (c :: g) :: gs

/-- String wrapper around `splitChar`. -/
def strSplitChar (sep : Char) (s : String) : List String :=
  (splitChar sep s.data).map fun l => ⟨l⟩

/-- Whether the second list starts with the first one. -/
def listHasInit : List Char → List Char → Bool
  | [], _ => true
  | _ :: _, [] => false
  | p :: ps, c :: cs => p == c && listHasInit ps cs

/-- Whether the second list ends with the first one. -/
def listHasTail (p l : List Char) : Bool :=
  listHasInit p.reverse l.reverse

/-- Whether the first list occurs contiguously inside the second one. -/
def listContainsSeq (p : List Char) : List Char → Bool
  | [] => p.isEmpty
  | c :: cs => listHasInit p (c :: cs) || listContainsSeq p cs

/-- Fuel-indexed shell-style wildcard matching (`*` matches any run of
characters, `?` any single character); the fuel only forces termination and
is always supplied large enough. -/
def globMatchFuel : Nat → List Char → List Char → Bool
  | 0, _, _ => false
  | _ + 1, [], s => s.isEmpty
  | fuel + 1, '*' :: ps, s =>
    globMatchFuel fuel ps s ||
      (match s with
       | [] => false
       | _ :: cs => globMatchFuel fuel ('*' :: ps) cs)
  | fuel + 1, '?' :: ps, s =>
    (match s with
     | [] => false
     | _ :: cs => globMatchFuel fuel ps cs)
  | fuel + 1, p :: ps, s =>
    (match s with
     | [] => false
     | c :: cs => (p == c) && globMatchFuel fuel ps cs)

/-- Modelled from the spec: shell-style wildcard match of a name against a
pattern. -/
def globMatch (p s : List Char) : Bool :=
  globMatchFuel (p.length + s.length + 1) p s

/-- Modelled from the spec: a set of minute-of-week intervals; an interval
with `start > end` wraps past the Sunday→Monday boundary. -/
structure WeeklyRanges where
  ranges : List (Nat × Nat)
deriving DecidableEq, Repr

/-- Modelled from the spec: `WeeklyRanges.Match` tests whether the instant
`now` (a minute-of-week in `[0, 10080)`) falls inside one of the intervals;
it is a pure function of the instant. -/
def WeeklyRanges.Match (wr : WeeklyRanges) (now : Nat) : Bool :=
  wr.ranges.any fun r =>
    if r.1 ≤ r.2 then decide (r.1 ≤ now ∧ now ≤ r.2)
    else decide (r.1 ≤ now ∨ now ≤ r.2)

/-- Modelled from the spec: the per-query decision slot, initially `pass`. -/
inductive PluginsAction
  | pass
  | reject
deriving DecidableEq, Repr

/-- The `PluginsActionReject` constant of the host. -/
def PluginsActionReject : PluginsAction := PluginsAction.reject

/-- Modelled from the spec: the per-query return code slot. -/
inductive PluginsReturnCode
  | pass
  | reject
deriving DecidableEq, Repr

/-- The `PluginsReturnCodeReject` constant of the host. -/
def PluginsReturnCodeReject : PluginsReturnCode := PluginsReturnCode.reject

/-- Modelled from the spec: the per-query context.  `sessionData` is the set
of session-flag keys bound to a non-nil value (only `"whitelisted"` is ever
consulted); `clientAddr` is the client address's IP rendered as a string (the
UDP/TCP address type assertions of the source both end in `IP.String()`). -/
structure PluginsState where
  sessionData : List String
  action : PluginsAction
  returnCode : PluginsReturnCode
  clientProto : String
  clientAddr : String
deriving DecidableEq, Repr

/-- Modelled from the spec: a DNS question (only its name is consulted). -/
structure Question where
  name : String
deriving DecidableEq, Repr

/-- Modelled from the spec: a DNS answer record, reduced to the fields the
walker consults: class, record type, and, for CNAME records, the target. -/
structure Answer where
  rrClass : Nat
  rrtype : Nat
  target : String
deriving DecidableEq, Repr

/-- The `dns.ClassINET` constant. -/
def ClassINET : Nat := 1

/-- The `dns.TypeCNAME` constant. -/
def TypeCNAME : Nat := 5

/-- Modelled from the spec: a DNS message, reduced to its question and
answer sections. -/
structure Msg where
  question : List Question
  answer : List Answer
deriving DecidableEq, Repr

/-- Modelled from the spec: the five pattern kinds of the matcher. -/
inductive MatchKind
  | kindExact
  | kindSuffix
  | kindStartsWith
  | kindContains
  | kindWildcard
deriving DecidableEq, BEq, Repr

/-- Whether a character list contains a shell wildcard character. -/
def hasWildcardL : List Char → Bool
  | [] => false
  | c :: cs => c == '*' || c == '?' || hasWildcardL cs

/-- Modelled from the spec: classification of a pattern string into its
match kind together with the payload actually compared against names:
`=name` is exact; a wildcard-free pattern is a (label-aligned) suffix;
`*name*` is a substring; `*name` a suffix; `name*` a leading-part match;
anything else with `*` or `?` is a general wildcard pattern. -/
def classify (pat : String) : MatchKind × String :=
  match pat.data with
  | '=' :: rest => (MatchKind.kindExact, ⟨rest⟩)
  | l =>
    if hasWildcardL l = false then (MatchKind.kindSuffix, pat)
    else if l.head? = some '*' ∧ l.getLast? = some '*' ∧ 2 ≤ l.length ∧
        hasWildcardL (l.dropLast.drop 1) = false then
      (MatchKind.kindContains, ⟨l.dropLast.drop 1⟩)
    else if l.head? = some '*' ∧ hasWildcardL (l.drop 1) = false then
      (MatchKind.kindSuffix, ⟨l.drop 1⟩)
    else if l.getLast? = some '*' ∧ hasWildcardL l.dropLast = false then
      (MatchKind.kindStartsWith, ⟨l.dropLast⟩)
    else (MatchKind.kindWildcard, pat)

/-- Modelled from the spec: label-aligned suffix matching — the name equals
the pattern or ends with `"." ++ pattern`. -/
def suffixAligned (payload name : String) : Bool :=
  name == payload || listHasTail ('.' :: payload.data) name.data

/-- Modelled from the spec: whether a name matches a payload under a given
match kind. -/
def matchPat : MatchKind → String → String → Bool
  | MatchKind.kindExact, payload, name => name == payload
  | MatchKind.kindSuffix, payload, name => suffixAligned payload name
  | MatchKind.kindStartsWith, payload, name => listHasInit payload.data name.data
  | MatchKind.kindContains, payload, name => listContainsSeq payload.data name.data
  | MatchKind.kindWildcard, payload, name => globMatch payload.data name.data

/-- Modelled from the spec: the syntax-error message returned by
`PatternMatcher.Add` for a malformed pattern; `lineNo` is 1-based. -/
def addErrMsg (lineNo : Nat) : String :=
  s!"Syntax error in block rule at line {lineNo}"

/-- Modelled from the spec: a compiled rule — the stored (normalized)
pattern text, the optional time gate, and the 1-based source line number. -/
structure Rule where
  pattern : String
  timeGate : Option WeeklyRanges
  lineNo : Nat
deriving DecidableEq, Repr

/-- Modelled from the spec: the matcher holds the compiled rules in
insertion order; kind containers are recovered by filtering on the kind. -/
structure PatternMatcher where
  rules : List Rule
deriving DecidableEq, Repr

/-- The empty matcher (source constructor name `NewPatternPatcher`). -/
def NewPatternPatcher : PatternMatcher := ⟨[]⟩

/-- Modelled from the spec: `PatternMatcher.Add` parses a pattern and stores
it with its optional time gate and line number; it returns a syntax error
for malformed patterns.  Which pattern texts are malformed is not pinned
down by the spec, so it is abstracted as the predicate `malformed`.
Normalization (lowercasing, trailing-dot stripping) happens before
storage. -/
def PatternMatcher.Add (malformed : String → Bool) (pm : PatternMatcher)
    (pat : String) (gate : Option WeeklyRanges) (lineNo : Nat) :
    Except String PatternMatcher :=
  if malformed pat then
    Except.error (addErrMsg lineNo)
  else
    Except.ok ⟨pm.rules ++ [⟨strLower (StripTrailingDot pat), gate, lineNo⟩]⟩

/-- Whether a rule, classified from its stored pattern, has the given kind
and matches the given name. -/
def ruleMatches (name : String) (k : MatchKind) (r : Rule) : Bool :=
  let ck := classify r.pattern
  ck.1 == k && matchPat ck.1 ck.2 name

/-- Modelled from the spec: `PatternMatcher.Eval` returns whether the name
matches any rule, the winning rule's stored text as the reason, and its
optional time gate.  Kind containers are tried in the order Exact → Suffix
→ leading-part → Substring → Wildcard; within a kind the first-inserted
matching rule wins. -/
def PatternMatcher.Eval (pm : PatternMatcher) (name : String) :
    Bool × String × Option WeeklyRanges :=
  let found :=
    (pm.rules.find? (ruleMatches name MatchKind.kindExact)) <|>
    (pm.rules.find? (ruleMatches name MatchKind.kindSuffix)) <|>
    (pm.rules.find? (ruleMatches name MatchKind.kindStartsWith)) <|>
    (pm.rules.find? (ruleMatches name MatchKind.kindContains)) <|>
    (pm.rules.find? (ruleMatches name MatchKind.kindWildcard))
  match found with
  | some r => (true, r.pattern, r.timeGate)
  | none => (false, "", none)

/-- Hex digit character for a value below 16. -/
def hexDigit (n : Nat) : Char :=
  if n < 10 then Char.ofNat (48 + n) else Char.ofNat (87 + n)

/-- Modelled from the spec: quoting of one character inside an audit field —
`"` and `\` are backslash-escaped and control characters become `\xNN`. -/
def quoteChar (c : Char) : List Char :=
  if c = '"' then ['\\', '"']
  else if c = '\\' then ['\\', '\\']
  else if c.toNat < 32 then
    ['\\', 'x', hexDigit (c.toNat / 16), hexDigit (c.toNat % 16)]
  else [c]

/-- Modelled from the spec: `StringQuote` wraps a string in double quotes
with escaping. -/
def StringQuote (s : String) : String :=
  ⟨'"' :: (s.data.flatMap quoteChar) ++ ['"']⟩

/-- The engine state of the source's `BlockedNames` struct.  The logger is
reduced to its presence (`Option Unit`): only nil-ness and the written line
are observable here. -/
structure BlockedNames where
  allWeeklyRanges : List (String × WeeklyRanges)
  patternMatcher : PatternMatcher
  logger : Option Unit
  format : String
deriving DecidableEq, Repr

/-- The `aliasesLimit` constant of the source. -/
def aliasesLimit : Nat := 8

/-- Outcome of one `BlockedNames.check` call: the returned boolean, the
returned error (as an optional message), the plugins state after the call,
and the audit line written to the logger, if any. -/
structure CheckResult where
  reject : Bool
  err : Option String
  state : PluginsState
  logLine : Option String
deriving DecidableEq, Repr

/-- The `tsv` audit line.  The calendar rendering of `time.Now()` is
abstracted to the instant parameter `now`. -/
def tsvLine (now : Nat) (clientIPStr qName reason : String) : String :=
  s!"[{now}]\t{clientIPStr}\t{qName}\t{reason}\n"

/-- The `ltsv` audit line.  The Unix-seconds rendering of `time.Now()` is
abstracted to the instant parameter `now`. -/
def ltsvLine (now : Nat) (clientIPStr qName reason : String) : String :=
  s!"time:{now}\thost:{clientIPStr}\tqname:{qName}\tmessage:{reason}\n"

/-- Lines 66–69 of the source: the re-test of `logger == nil` inside the
branch already guarded by `logger != nil`, followed by the write. -/
def writeOrErr (bn : BlockedNames) (st : PluginsState) (line : String) :
    Except Unit CheckResult :=
  match bn.logger with
  | none => Except.ok ⟨false, some "Log file not initialized", st, none⟩
  | some _ => Except.ok ⟨true, none, st, some line⟩

/-- Lines 37–41 of the source: the returned match is demoted to a
non-reject when its time gate exists and does not match the instant. -/
def rejectDecision (e : Bool × String × Option WeeklyRanges) (now : Nat) :
    Bool :=
  if e.1 then
    match e.2.2 with
    | some wr => wr.Match now
    | none => true
  else false

/-- Lines 47–71 of the source: the audit block run after the decision slots
have been set — pick the line format from `bn.format` (an unexpected format
is the process-terminating `dlog.Fatalf`, modelled as `Except.error ()`),
then write the line. -/
def auditAndReturn (bn : BlockedNames) (st' : PluginsState)
    (qName reason : String) (now : Nat) : Except Unit CheckResult :=
  match bn.logger with
  | none => Except.ok ⟨true, none, st', none⟩
  | some _ =>
    let clientIPStr := st'.clientAddr
    if bn.format = "tsv" then
      writeOrErr bn st' (tsvLine now clientIPStr (StringQuote qName) (StringQuote reason))
    else if bn.format = "ltsv" then
      writeOrErr bn st' (ltsvLine now clientIPStr (StringQuote qName) (StringQuote reason))
    else Except.error ()

/-- Body of `BlockedNames.check` after the one-shot normalization of the
query name (source line 28 reassigns `qName`; everything below uses only
the normalized name). -/
def BlockedNames.checkNormalized (bn : BlockedNames) (st : PluginsState)
    (qName : String) (aliasFor : Option String) (now : Nat) :
    Except Unit CheckResult :=
  let r := bn.patternMatcher.Eval qName
  let reason :=
    match aliasFor with
    | some af => r.2.1 ++ " (alias for [" ++ StripTrailingDot af ++ "])"
    | none => r.2.1
  if rejectDecision r now = false then Except.ok ⟨false, none, st, none⟩
  else
    auditAndReturn bn
      { st with action := PluginsActionReject,
                returnCode := PluginsReturnCodeReject }
      qName reason now

/-- The source's `BlockedNames.check`: normalizes the query name
(lowercase, trailing dot stripped) and runs the evaluator body. -/
def BlockedNames.check (bn : BlockedNames) (st : PluginsState)
    (qName : String) (aliasFor : Option String) (now : Nat) :
    Except Unit CheckResult :=
  bn.checkNormalized st (strLower (StripTrailingDot qName)) aliasFor now

/-- The source's `PluginBlockName.Eval`: the query-side plugin entry point.
`bnOpt` is the global `blockedNames` (none while unset); the result is the
returned error together with the plugins state after the call. -/
def PluginBlockName.Eval (bnOpt : Option BlockedNames) (st : PluginsState)
    (msg : Msg) (now : Nat) : Except Unit (Option String × PluginsState) :=
  match bnOpt with
  | none => Except.ok (none, st)
  | some bn =>
    if st.sessionData.contains "whitelisted" then Except.ok (none, st)
    else
      match msg.question with
      | [q] =>
        (bn.check st q.name none now).map fun res => (res.err, res.state)
      | _ => Except.ok (none, st)

/-- The loop of `PluginBlockNameResponse.Eval` (source lines 189–203):
walks the answer records threading the plugins state, skipping records that
are not Internet-class CNAMEs, submitting each CNAME target to
`BlockedNames.check`, returning on the first block or returned error, and
breaking once the alias budget is spent.  The second component is the list
of answer records actually submitted to `check` (ghost output used to state
the walking invariants). -/
def respLoop (bn : BlockedNames) (aliasFor : String) (now : Nat) :
    PluginsState → List Answer → Nat →
    Except Unit (Option String × PluginsState) × List Answer
  | st, [], _ => (Except.ok (none, st), [])
  | st, a :: rest, aliasesLeft =>
    if a.rrClass ≠ ClassINET ∨ a.rrtype ≠ TypeCNAME then
      respLoop bn aliasFor now st rest aliasesLeft
    else
      match bn.check st a.target (some aliasFor) now with
      | Except.error e => (Except.error e, [a])
      | Except.ok res =>
        if res.reject || res.err.isSome then (Except.ok (res.err, res.state), [a])
        else if aliasesLeft - 1 = 0 then (Except.ok (none, res.state), [a])
        else
          let r := respLoop bn aliasFor now res.state rest (aliasesLeft - 1)
          (r.1, a :: r.2)

/-- The source's `PluginBlockNameResponse.Eval`: the response-side plugin
entry point; walks the CNAME chain of the answer section with
`aliasFor = questions[0].Name` and budget `aliasesLimit`.  The second
component is the ghost list of inspected CNAME records. -/
def PluginBlockNameResponse.Eval (bnOpt : Option BlockedNames)
    (st : PluginsState) (msg : Msg) (now : Nat) :
    Except Unit (Option String × PluginsState) × List Answer :=
  match bnOpt with
  | none => (Except.ok (none, st), [])
  | some bn =>
    if st.sessionData.contains "whitelisted" then (Except.ok (none, st), [])
    else
      match msg.question with
      | [q] => respLoop bn q.name now st msg.answer aliasesLimit
      | _ => (Except.ok (none, st), [])

/-- Lookup of a time-range name in the weekly-ranges catalog (models the
Go map access `(*allWeeklyRanges)[timeRangeName]`). -/
def catalogFind (cat : List (String × WeeklyRanges)) (nm : String) :
    Option WeeklyRanges :=
  match cat with
  | [] => none
  | e :: rest => if e.1 = nm then some e.2 else catalogFind rest nm

/-- The `dlog.Errorf` message for an unknown time-range name (source line
115); `lineNoDisp` is the displayed 1-based line number. -/
def timeRangeMsg (nm : String) (lineNoDisp : Nat) : String :=
  s!"Time range [{nm}] not found at line {lineNoDisp}"

/-- The `dlog.Errorf` message for a line with more than one `@` (source
line 108); `lineNoDisp` is the displayed 1-based line number. -/
def unexpectedAtMsg (lineNoDisp : Nat) : String :=
  s!"Syntax error in block rules at line {lineNoDisp} -- Unexpected @ character"

/-- The `Add` call with its log-and-skip error handling (source lines
120–123): a pattern rejected by `PatternMatcher.Add` is logged and the line
is skipped. -/
def addStep (malformed : String → Bool) (pm : PatternMatcher)
    (logs : List String) (pat : String) (gate : Option WeeklyRanges)
    (lineNo : Nat) : PatternMatcher × List String :=
  match PatternMatcher.Add malformed pm pat gate (lineNo + 1) with
  | Except.ok pm' => (pm', logs)
  | Except.error e => (pm, logs ++ [e])

/-- One iteration of the loader loop of `PluginBlockName.Init` (source
lines 97–124): trim the line, skip blanks and `#` comments, split on `@`,
resolve the optional time-range name (logging unknown names but keeping the
rule without a gate), and add the pattern.  `lineNo` is the 0-based index
from the iteration; logged messages carry `1 + lineNo`. -/
def processLine (malformed : String → Bool)
    (catalog : List (String × WeeklyRanges))
    (acc : PatternMatcher × List String) (lineNo : Nat) (rawLine : String) :
    PatternMatcher × List String :=
  let pm := acc.1
  let logs := acc.2
  let line := strTrim rawLine
  if line.data.isEmpty || line.data.head? == some '#' then (pm, logs)
  else
    match strSplitChar '@' line with
    | [p, t] =>
      let pat := strTrim p
      let timeRangeName := strTrim t
      if timeRangeName.data.isEmpty then addStep malformed pm logs pat none lineNo
      else
        match catalogFind catalog timeRangeName with
        | none =>
          addStep malformed pm
            (logs ++ [timeRangeMsg timeRangeName (1 + lineNo)])
            pat none lineNo
        | some wr => addStep malformed pm logs pat (some wr) lineNo
    | [p] => addStep malformed pm logs p none lineNo
    | _ => (pm, logs ++ [unexpectedAtMsg (1 + lineNo)])

/-- Result of `PluginBlockName.Init`: the published global engine (none when
the rule file could not be read), the `dlog` error messages emitted while
loading, and the returned error (none models a nil return). -/
structure InitResult where
  blockedNames : Option BlockedNames
  logs : List String
  ret : Option String
deriving Repr

/-- The source's `PluginBlockName.Init`: reads the rule file (the read
outcome is passed in as `readResult`), folds the loader loop over its lines,
publishes the engine, and, when an audit log file is configured, attaches
the logger and copies the configured format string — with no validation of
that string. -/
def PluginBlockName.Init (malformed : String → Bool)
    (readResult : Except String String)
    (allWeeklyRanges : List (String × WeeklyRanges))
    (blockNameLogFile blockNameFormat : String) : InitResult :=
  match readResult with
  | Except.error e => ⟨none, [], some e⟩
  | Except.ok bin =>
    let step := processLine malformed allWeeklyRanges
    let folded := ((strSplitChar '\n' bin).enum).foldl
      (fun acc p => step acc p.1 p.2) (NewPatternPatcher, [])
    let bn0 : BlockedNames :=
      { allWeeklyRanges := allWeeklyRanges, patternMatcher := folded.1,
        logger := none, format := "" }
    if blockNameLogFile.data.isEmpty then ⟨some bn0, folded.2, none⟩
    else
      ⟨some { bn0 with logger := some (), format := blockNameFormat },
       folded.2, none⟩

/-- Whether an answer record is an Internet-class CNAME (the records the
response walker does not skip). -/
def isINETCNAME (a : Answer) : Bool :=
  a.rrClass == ClassINET && a.rrtype == TypeCNAME

/-- The time gate of an `Eval` result matches the instant when absent or
when its `WeeklyRanges.Match` holds. -/
def gateOk (g : Option WeeklyRanges) (now : Nat) : Bool :=
  match g with
  | some wr => wr.Match now
  | none => true

/-- A weekly range used by the concrete witnesses. -/
def sampleWr : WeeklyRanges := ⟨[(100, 200)]⟩

/-- A plugins state used by the concrete witnesses. -/
def sampleState : PluginsState :=
  ⟨[], PluginsAction.pass, PluginsReturnCode.pass, "udp", "192.0.2.5"⟩

/-- A whitelisted plugins state used by the concrete witnesses. -/
def sampleWhitelisted : PluginsState :=
  ⟨["whitelisted"], PluginsAction.pass, PluginsReturnCode.pass, "udp", "192.0.2.5"⟩

/-- An engine with one suffix rule and no audit logger. -/
def sampleBn : BlockedNames := ⟨[], ⟨[⟨"ads.example", none, 1⟩]⟩, none, ""⟩

/-- An engine with one time-gated rule and no audit logger. -/
def sampleBnGated : BlockedNames := ⟨[], ⟨[⟨"social", some sampleWr, 1⟩]⟩, none, ""⟩

/-- An engine with a logger and an unknown audit format. -/
def sampleBnBadFormat : BlockedNames :=
  ⟨[], ⟨[⟨"ads.example", none, 1⟩]⟩, some (), "xml"⟩

/-- A response message used by the concrete witnesses: a CNAME chain with a
non-CNAME record inserted between two CNAMEs, the second of which is
blocked by `sampleBn`. -/
def sampleMsg : Msg :=
  ⟨[⟨"x."⟩],
   [⟨1, 5, "a.b."⟩, ⟨1, 1, "ignored"⟩, ⟨1, 5, "c.ads.example."⟩, ⟨1, 5, "never"⟩]⟩

theorem rejectDecision_eq (e : Bool × String × Option WeeklyRanges) (now : Nat) :
    rejectDecision e now = (e.1 && gateOk e.2.2 now) := by
  rcases e with ⟨r1, reason, g⟩
  cases r1 <;> cases g <;> simp [rejectDecision, gateOk]

theorem auditAndReturn_ok (bn : BlockedNames) (st' : PluginsState)
    (q reason : String) (now : Nat) (res : CheckResult)
    (h : auditAndReturn bn st' q reason now = Except.ok res) :
    res.reject = true ∧ res.err = none ∧ res.state = st' := by
  cases hl : bn.logger with
  | none =>
    unfold auditAndReturn at h
    rw [hl] at h
    cases h
    exact ⟨rfl, rfl, rfl⟩
  | some u =>
    unfold auditAndReturn writeOrErr at h
    rw [hl] at h
    dsimp only at h
    split at h
    · cases h
      exact ⟨rfl, rfl, rfl⟩
    · split at h
      · cases h
        exact ⟨rfl, rfl, rfl⟩
      · exact Except.noConfusion h

theorem check_ok_char (bn : BlockedNames) (st : PluginsState) (q : String)
    (a : Option String) (now : Nat) (res : CheckResult)
    (h : bn.check st q a now = Except.ok res) :
    (res.reject = true ↔
      ((bn.patternMatcher.Eval (strLower (StripTrailingDot q))).1 = true ∧
       gateOk (bn.patternMatcher.Eval (strLower (StripTrailingDot q))).2.2 now = true)) ∧
    res.err = none ∧
    (res.reject = false → res = ⟨false, none, st, none⟩) ∧
    (res.reject = true →
      res.state = { st with action := PluginsActionReject,
                            returnCode := PluginsReturnCodeReject }) := by
  unfold BlockedNames.check BlockedNames.checkNormalized at h
  simp only [rejectDecision_eq] at h
  split at h
  · next hcond =>
    cases h
    rw [Bool.and_eq_false_iff] at hcond
    constructor
    · simp only [show (false = true) ↔ False by simp]
      constructor
      · exact fun hf => hf.elim
      · rintro ⟨h1, h2⟩
        rcases hcond with hc | hc
        · rw [h1] at hc
          exact Bool.noConfusion hc
        · rw [h2] at hc
          exact Bool.noConfusion hc
    · exact ⟨rfl, fun _ => rfl, fun ht => Bool.noConfusion ht⟩
  · next hcond =>
    rw [Bool.not_eq_false, Bool.and_eq_true] at hcond
    obtain ⟨hr, he, hs⟩ := auditAndReturn_ok _ _ _ _ _ _ h
    refine ⟨?_, he, ?_, fun _ => hs⟩
    · rw [hr]
      simp only [true_iff]
      exact hcond
    · intro hf
      rw [hr] at hf
      exact Bool.noConfusion hf

theorem check_ok_err_none (bn : BlockedNames) (st : PluginsState)
    (q : String) (a : Option String) (now : Nat) (res : CheckResult)
    (h : bn.check st q a now = Except.ok res) : res.err = none :=
  (check_ok_char bn st q a now res h).2.1

theorem check_ok_of_reject_false (bn : BlockedNames) (st : PluginsState)
    (q : String) (a : Option String) (now : Nat) (res : CheckResult)
    (h : bn.check st q a now = Except.ok res) (hr : res.reject = false) :
    res = ⟨false, none, st, none⟩ :=
  (check_ok_char bn st q a now res h).2.2.1 hr

theorem respLoop_length (bn : BlockedNames) (af : String) (now : Nat) :
    ∀ (answers : List Answer) (st : PluginsState) (left : Nat), 1 ≤ left →
      ((respLoop bn af now st answers left).2).length ≤ left := by
  intro answers
  induction answers with
  | nil =>
    intro st left _
    simp [respLoop]
  | cons a rest ih =>
    intro st left hleft
    simp only [respLoop]
    split
    · exact ih st left hleft
    · cases hc : bn.check st a.target (some af) now with
      | error e => simpa using hleft
      | ok res =>
        dsimp only
        split
        · simpa using hleft
        · split
          · simpa using hleft
          · next hne =>
            have h1 : 1 ≤ left - 1 := Nat.one_le_iff_ne_zero.mpr hne
            have h2 := ih res.state (left - 1) h1
            simp only [List.length_cons]
            omega

theorem respLoop_inspected_cname (bn : BlockedNames) (af : String) (now : Nat) :
    ∀ (answers : List Answer) (st : PluginsState) (left : Nat)
      (x : Answer), x ∈ (respLoop bn af now st answers left).2 →
      isINETCNAME x = true := by
  intro answers
  induction answers with
  | nil =>
    intro st left x hx
    simp [respLoop] at hx
  | cons a rest ih =>
    intro st left x hx
    simp only [respLoop] at hx
    have hcn : ¬(a.rrClass ≠ ClassINET ∨ a.rrtype ≠ TypeCNAME) →
        isINETCNAME a = true := by
      intro hcond
      push_neg at hcond
      simp [isINETCNAME, hcond.1, hcond.2]
    split at hx
    · exact ih st left x hx
    · next hcond =>
      cases hc : bn.check st a.target (some af) now with
      | error e =>
        rw [hc] at hx
        dsimp only at hx
        simp only [List.mem_singleton] at hx
        subst hx
        exact hcn hcond
      | ok res =>
        rw [hc] at hx
        dsimp only at hx
        split at hx
        · simp only [List.mem_singleton] at hx
          subst hx
          exact hcn hcond
        · split at hx
          · simp only [List.mem_singleton] at hx
            subst hx
            exact hcn hcond
          · simp only [List.mem_cons] at hx
            rcases hx with hx | hx
            · subst hx
              exact hcn hcond
            · exact ih res.state (left - 1) x hx

theorem respLoop_inspected_take (bn : BlockedNames) (af : String) (now : Nat) :
    ∀ (answers : List Answer) (st : PluginsState) (left : Nat),
      (respLoop bn af now st answers left).2 =
        (answers.filter isINETCNAME).take
          ((respLoop bn af now st answers left).2).length := by
  intro answers
  induction answers with
  | nil =>
    intro st left
    simp [respLoop]
  | cons a rest ih =>
    intro st left
    simp only [respLoop]
    split
    · next hcond =>
      have hf : isINETCNAME a = false := by
        rcases hcond with hc | hc
        · simp [isINETCNAME, hc]
        · simp [isINETCNAME, hc]
      rw [List.filter_cons_of_neg (by simp [hf])]
      exact ih st left
    · next hcond =>
      have ht : isINETCNAME a = true := by
        push_neg at hcond
        simp [isINETCNAME, hcond.1, hcond.2]
      rw [List.filter_cons_of_pos (by simp [ht])]
      cases hc : bn.check st a.target (some af) now with
      | error e => simp
      | ok res =>
        dsimp only
        split
        · simp
        · split
          · simp
          · simp only [List.length_cons, List.take_succ_cons, List.cons.injEq,
              true_and]
            exact ih res.state (left - 1)

theorem respLoop_dropLast_pass (bn : BlockedNames) (af : String) (now : Nat) :
    ∀ (answers : List Answer) (st : PluginsState) (left : Nat)
      (x : Answer), x ∈ ((respLoop bn af now st answers left).2).dropLast →
      bn.check st x.target (some af) now = Except.ok ⟨false, none, st, none⟩ := by
  intro answers
  induction answers with
  | nil =>
    intro st left x hx
    simp [respLoop] at hx
  | cons a rest ih =>
    intro st left x hx
    simp only [respLoop] at hx
    split at hx
    · exact ih st left x hx
    · cases hc : bn.check st a.target (some af) now with
      | error e =>
        rw [hc] at hx
        simp at hx
      | ok res =>
        rw [hc] at hx
        dsimp only at hx
        split at hx
        · simp at hx
        · next hpass =>
          have hrf : res.reject = false := by
            cases hb : res.reject with
            | false => rfl
            | true => exact absurd (by simp [hb]) hpass
          have hres : res = ⟨false, none, st, none⟩ :=
            check_ok_of_reject_false bn st a.target (some af) now res hc hrf
          split at hx
          · simp at hx
          · rcases hr2 : (respLoop bn af now res.state rest (left - 1)).2 with
              _ | ⟨b, tl⟩
            · rw [hr2] at hx
              simp at hx
            · rw [hr2] at hx
              rw [List.dropLast_cons₂] at hx
              rcases List.mem_cons.mp hx with hxa | hxtl
              · subst hxa
                exact hc.trans (by rw [hres])
              · have := ih res.state (left - 1) x (by rw [hr2]; exact hxtl)
                rw [hres] at this
                exact this

theorem respLoop_err_none (bn : BlockedNames) (af : String) (now : Nat) :
    ∀ (answers : List Answer) (st : PluginsState) (left : Nat)
      (r : Option String × PluginsState),
      (respLoop bn af now st answers left).1 = Except.ok r → r.1 = none := by
  intro answers
  induction answers with
  | nil =>
    intro st left r h
    simp only [respLoop] at h
    cases h
    rfl
  | cons a rest ih =>
    intro st left r h
    simp only [respLoop] at h
    split at h
    · exact ih st left r h
    · cases hc : bn.check st a.target (some af) now with
      | error e =>
        rw [hc] at h
        exact Except.noConfusion h
      | ok res =>
        rw [hc] at h
        dsimp only at h
        split at h
        · cases h
          exact check_ok_err_none bn st a.target (some af) now res hc
        · split at h
          · cases h
            rfl
          · exact ih res.state (left - 1) r h

/-- C1: for every query name and plugins state, a returning `check` call
rejects iff `PatternMatcher.Eval` reports a match for the normalized name
and, when the matched rule carries a time gate, `WeeklyRanges.Match` holds
at the evaluation instant; a match whose gate does not match the instant
yields no rejection and leaves the plugins state unchanged. -/
theorem claim_C1_check_reject_iff (bn : BlockedNames) (st : PluginsState)
    (qName : String) (aliasFor : Option String) (now : Nat) (res : CheckResult)
    (h : bn.check st qName aliasFor now = Except.ok res) :
    (res.reject = true ↔
      ((bn.patternMatcher.Eval (strLower (StripTrailingDot qName))).1 = true ∧
       gateOk (bn.patternMatcher.Eval (strLower (StripTrailingDot qName))).2.2
         now = true)) ∧
    (res.reject = false → res.state = st) := by
  obtain ⟨h1, _, h3, _⟩ := check_ok_char bn st qName aliasFor now res h
  exact ⟨h1, fun hf => by rw [h3 hf]⟩

/-- C1 witness: the gated rule `social @sampleWr` matches `social` but the
gate does not match instant 50, so the call returns without rejection and
without effect. -/
theorem claim_C1_witness :
    ((CheckResult.mk false none sampleState none).reject = true ↔
      ((sampleBnGated.patternMatcher.Eval
          (strLower (StripTrailingDot "social"))).1 = true ∧
       gateOk (sampleBnGated.patternMatcher.Eval
          (strLower (StripTrailingDot "social"))).2.2 50 = true)) ∧
    ((CheckResult.mk false none sampleState none).reject = false →
      (CheckResult.mk false none sampleState none).state = sampleState) :=
  claim_C1_check_reject_iff sampleBnGated sampleState "social" none 50
    ⟨false, none, sampleState, none⟩ (by rfl)

/-- C10: a returning `check` call that returns `true` has set the action to
`PluginsActionReject` and the return code to `PluginsReturnCodeReject` and
changed nothing else; a call that returns `false` has left every field of
the plugins state unchanged. -/
theorem claim_C10_check_frame (bn : BlockedNames) (st : PluginsState)
    (qName : String) (aliasFor : Option String) (now : Nat) (res : CheckResult)
    (h : bn.check st qName aliasFor now = Except.ok res) :
    (res.reject = true →
      res.state = { st with action := PluginsActionReject,
                            returnCode := PluginsReturnCodeReject }) ∧
    (res.reject = false → res = ⟨false, none, st, none⟩) := by
  obtain ⟨_, _, h3, h4⟩ := check_ok_char bn st qName aliasFor now res h
  exact ⟨h4, h3⟩

/-- C10 witness: the suffix rule `ads.example` blocks `foo.ads.example.`
and the mutated state is exactly the input state with the two decision
slots set. -/
theorem claim_C10_witness :
    ((CheckResult.mk true none
        { sampleState with action := PluginsActionReject,
                           returnCode := PluginsReturnCodeReject } none).reject = true →
      (CheckResult.mk true none
        { sampleState with action := PluginsActionReject,
                           returnCode := PluginsReturnCodeReject } none).state =
        { sampleState with action := PluginsActionReject,
                           returnCode := PluginsReturnCodeReject }) ∧
    ((CheckResult.mk true none
        { sampleState with action := PluginsActionReject,
                           returnCode := PluginsReturnCodeReject } none).reject = false →
      (CheckResult.mk true none
        { sampleState with action := PluginsActionReject,
                           returnCode := PluginsReturnCodeReject } none) =
        ⟨false, none, sampleState, none⟩) :=
  claim_C10_check_frame sampleBn sampleState "foo.ads.example." none 0
    ⟨true, none,
      { sampleState with action := PluginsActionReject,
                         returnCode := PluginsReturnCodeReject }, none⟩ (by rfl)

/-- C5: `check` lowercases the query name and strips a trailing dot before
consulting the matcher, so two names with the same normalization — in
particular case variants and trailing-dot variants of one name — produce
identical outcomes. -/
theorem claim_C5_normalization (bn : BlockedNames) (st : PluginsState)
    (n1 n2 : String) (aliasFor : Option String) (now : Nat)
    (h : strLower (StripTrailingDot n1) = strLower (StripTrailingDot n2)) :
    bn.check st n1 aliasFor now = bn.check st n2 aliasFor now := by
  unfold BlockedNames.check
  rw [h]

/-- C5 witness: `BAD.Example.` and `bad.example` normalize identically and
get the same decision from the engine. -/
theorem claim_C5_witness :
    strLower (StripTrailingDot "BAD.Example.") =
      strLower (StripTrailingDot "bad.example") ∧
    sampleBn.check sampleState "BAD.Example." none 0 =
      sampleBn.check sampleState "bad.example" none 0 :=
  ⟨by decide,
   claim_C5_normalization sampleBn sampleState "BAD.Example." "bad.example"
     none 0 (by decide)⟩

/-- C9: the `Log file not initialized` branch of `check` re-tests
`logger == nil` inside a block guarded by `logger != nil` and is
unreachable: every returning `check` call returns a nil error, and so do
both plugin `Eval` operations. -/
theorem claim_C9_no_errors :
    (∀ (bn : BlockedNames) (st : PluginsState) (q : String) (a : Option String)
       (now : Nat) (res : CheckResult),
       bn.check st q a now = Except.ok res → res.err = none) ∧
    (∀ (bnOpt : Option BlockedNames) (st : PluginsState) (msg : Msg) (now : Nat)
       (r : Option String × PluginsState),
       PluginBlockName.Eval bnOpt st msg now = Except.ok r → r.1 = none) ∧
    (∀ (bnOpt : Option BlockedNames) (st : PluginsState) (msg : Msg) (now : Nat)
       (r : Option String × PluginsState) (ins : List Answer),
       PluginBlockNameResponse.Eval bnOpt st msg now = (Except.ok r, ins) →
       r.1 = none) := by
  refine ⟨check_ok_err_none, ?_, ?_⟩
  · intro bnOpt st msg now r h
    cases bnOpt with
    | none =>
      cases h
      rfl
    | some bn =>
      by_cases hw : st.sessionData.contains "whitelisted" = true
      · simp only [PluginBlockName.Eval, hw, if_true] at h
        cases h
        rfl
      · rcases hq : msg.question with _ | ⟨q, _ | ⟨q2, qs⟩⟩
        · simp only [PluginBlockName.Eval, hw, if_false, hq] at h
          cases h
          rfl
        · simp only [PluginBlockName.Eval, hw, if_false, hq] at h
          cases hc : bn.check st q.name none now with
          | error e =>
            rw [hc] at h
            exact Except.noConfusion h
          | ok res =>
            rw [hc] at h
            cases h
            exact check_ok_err_none bn st q.name none now res hc
        · simp only [PluginBlockName.Eval, hw, if_false, hq] at h
          cases h
          rfl
  · intro bnOpt st msg now r ins h
    cases bnOpt with
    | none =>
      cases h
      rfl
    | some bn =>
      by_cases hw : st.sessionData.contains "whitelisted" = true
      · simp only [PluginBlockNameResponse.Eval, hw, if_true] at h
        cases h
        rfl
      · rcases hq : msg.question with _ | ⟨q, _ | ⟨q2, qs⟩⟩
        · simp only [PluginBlockNameResponse.Eval, hw, if_false, hq] at h
          cases h
          rfl
        · simp only [PluginBlockNameResponse.Eval, hw, if_false, hq] at h
          have h' : respLoop bn q.name now st msg.answer aliasesLimit =
              (Except.ok r, ins) := by simpa using h
          exact respLoop_err_none bn q.name now msg.answer st aliasesLimit r
            (by rw [h'])
        · simp only [PluginBlockNameResponse.Eval, hw, if_false, hq] at h
          cases h
          rfl

/-- C9 witness: a concrete returning call of each operation, with a nil
error in each outcome. -/
theorem claim_C9_witness :
    ((CheckResult.mk false none sampleState none).err = none) ∧
    ((none, sampleState) : Option String × PluginsState).1 = none ∧
    ((none,
      { sampleState with action := PluginsActionReject,
                         returnCode := PluginsReturnCodeReject }) :
        Option String × PluginsState).1 = none :=
  ⟨claim_C9_no_errors.1 sampleBnGated sampleState "social" none 50
     ⟨false, none, sampleState, none⟩ (by rfl),
   claim_C9_no_errors.2.1 (some sampleBn) sampleState ⟨[⟨"q."⟩], []⟩ 0
     (none, sampleState) (by rfl),
   claim_C9_no_errors.2.2 (some sampleBn) sampleState sampleMsg 0
     (none,
      { sampleState with action := PluginsActionReject,
                         returnCode := PluginsReturnCodeReject })
     [⟨1, 5, "a.b."⟩, ⟨1, 5, "c.ads.example."⟩] (by rfl)⟩

/-- C3: when the session flag map has a non-nil `whitelisted` entry, both
plugin `Eval` operations return a nil error immediately and leave the
plugins state completely unchanged, whatever the message contains. -/
theorem claim_C3_whitelisted_no_effect (bnOpt : Option BlockedNames)
    (st : PluginsState) (msg : Msg) (now : Nat)
    (h : st.sessionData.contains "whitelisted" = true) :
    PluginBlockName.Eval bnOpt st msg now = Except.ok (none, st) ∧
    PluginBlockNameResponse.Eval bnOpt st msg now = (Except.ok (none, st), []) := by
  have hmem : "whitelisted" ∈ st.sessionData := by simpa using h
  cases bnOpt with
  | none => exact ⟨rfl, rfl⟩
  | some bn =>
    exact ⟨by simp [PluginBlockName.Eval, hmem],
      by simp [PluginBlockNameResponse.Eval, hmem]⟩

/-- C3 witness: a whitelisted session against an engine whose rule matches
the query name and a CNAME target of the response. -/
theorem claim_C3_witness :
    sampleWhitelisted.sessionData.contains "whitelisted" = true ∧
    PluginBlockName.Eval (some sampleBn) sampleWhitelisted sampleMsg 0 =
      Except.ok (none, sampleWhitelisted) ∧
    PluginBlockNameResponse.Eval (some sampleBn) sampleWhitelisted sampleMsg 0 =
      (Except.ok (none, sampleWhitelisted), []) :=
  ⟨by decide,
   claim_C3_whitelisted_no_effect (some sampleBn) sampleWhitelisted sampleMsg 0
     (by decide)⟩

/-- C4: when the question section does not contain exactly one question,
both plugin `Eval` operations return a nil error and have no effect on the
plugins state. -/
theorem claim_C4_question_count (bnOpt : Option BlockedNames)
    (st : PluginsState) (msg : Msg) (now : Nat)
    (h : msg.question.length ≠ 1) :
    PluginBlockName.Eval bnOpt st msg now = Except.ok (none, st) ∧
    PluginBlockNameResponse.Eval bnOpt st msg now = (Except.ok (none, st), []) := by
  cases bnOpt with
  | none => exact ⟨rfl, rfl⟩
  | some bn =>
    by_cases hw : st.sessionData.contains "whitelisted" = true
    · have hmem : "whitelisted" ∈ st.sessionData := by simpa using hw
      exact ⟨by simp [PluginBlockName.Eval, hmem],
        by simp [PluginBlockNameResponse.Eval, hmem]⟩
    · have hmem : "whitelisted" ∉ st.sessionData := by simpa using hw
      rcases hq : msg.question with _ | ⟨q, _ | ⟨q2, qs⟩⟩
      · exact ⟨by simp [PluginBlockName.Eval, hmem, hq],
          by simp [PluginBlockNameResponse.Eval, hmem, hq]⟩
      · exact absurd (by rw [hq]; rfl) h
      · exact ⟨by simp [PluginBlockName.Eval, hmem, hq],
          by simp [PluginBlockNameResponse.Eval, hmem, hq]⟩

/-- C4 witness: a message with two questions is a no-op for both
operations even though its name and CNAME target match the rule. -/
theorem claim_C4_witness :
    (Msg.mk [⟨"foo.ads.example."⟩, ⟨"bar.ads.example."⟩]
        [⟨1, 5, "c.ads.example."⟩]).question.length ≠ 1 ∧
    PluginBlockName.Eval (some sampleBn) sampleState
        ⟨[⟨"foo.ads.example."⟩, ⟨"bar.ads.example."⟩], [⟨1, 5, "c.ads.example."⟩]⟩ 0 =
      Except.ok (none, sampleState) ∧
    PluginBlockNameResponse.Eval (some sampleBn) sampleState
        ⟨[⟨"foo.ads.example."⟩, ⟨"bar.ads.example."⟩], [⟨1, 5, "c.ads.example."⟩]⟩ 0 =
      (Except.ok (none, sampleState), []) :=
  ⟨by decide,
   claim_C4_question_count (some sampleBn) sampleState
     ⟨[⟨"foo.ads.example."⟩, ⟨"bar.ads.example."⟩], [⟨1, 5, "c.ads.example."⟩]⟩ 0
     (by decide)⟩

/-- C2: the ghost list of answer records the response walker submits to the
engine holds at most `aliasesLimit = 8` records, all of them Internet-class
CNAMEs; it is an initial segment of the subsequence of Internet-class CNAME
answer records (so skipped records consume no budget); and every submitted
record except possibly the last came back from `check` unblocked, so the
walk stops at the first block (or when the budget or the answer list is
exhausted). -/
theorem claim_C2_response_walk (bnOpt : Option BlockedNames)
    (st : PluginsState) (msg : Msg) (now : Nat) :
    ((PluginBlockNameResponse.Eval bnOpt st msg now).2).length ≤ aliasesLimit ∧
    (∀ x ∈ (PluginBlockNameResponse.Eval bnOpt st msg now).2,
      isINETCNAME x = true) ∧
    (PluginBlockNameResponse.Eval bnOpt st msg now).2 =
      (msg.answer.filter isINETCNAME).take
        ((PluginBlockNameResponse.Eval bnOpt st msg now).2).length ∧
    (∀ (bn : BlockedNames) (q : Question), bnOpt = some bn →
      msg.question = [q] →
      ∀ x ∈ ((PluginBlockNameResponse.Eval bnOpt st msg now).2).dropLast,
        bn.check st x.target (some q.name) now =
          Except.ok ⟨false, none, st, none⟩) := by
  cases bnOpt with
  | none =>
    refine ⟨by simp [PluginBlockNameResponse.Eval, aliasesLimit],
      by simp [PluginBlockNameResponse.Eval],
      by simp [PluginBlockNameResponse.Eval],
      fun bn q hbn => Option.noConfusion hbn⟩
  | some bn =>
    by_cases hw : st.sessionData.contains "whitelisted" = true
    · have hmem : "whitelisted" ∈ st.sessionData := by simpa using hw
      have hE : PluginBlockNameResponse.Eval (some bn) st msg now =
          (Except.ok (none, st), []) := by
        simp [PluginBlockNameResponse.Eval, hmem]
      rw [hE]
      exact ⟨by simp [aliasesLimit], by simp, by simp,
        fun bn' q hbn hq x hx => absurd hx (by simp)⟩
    · have hmem : "whitelisted" ∉ st.sessionData := by simpa using hw
      rcases hq : msg.question with _ | ⟨q, _ | ⟨q2, qs⟩⟩
      · have hE : PluginBlockNameResponse.Eval (some bn) st msg now =
            (Except.ok (none, st), []) := by
          simp [PluginBlockNameResponse.Eval, hmem, hq]
        rw [hE]
        refine ⟨by simp [aliasesLimit], by simp, by simp, ?_⟩
        intro bn' q' hbn hq' x hx
        exact List.noConfusion hq'
      · have hE : PluginBlockNameResponse.Eval (some bn) st msg now =
            respLoop bn q.name now st msg.answer aliasesLimit := by
          simp [PluginBlockNameResponse.Eval, hmem, hq]
        rw [hE]
        refine ⟨respLoop_length bn q.name now msg.answer st aliasesLimit
            (by decide),
          fun x hx => respLoop_inspected_cname bn q.name now msg.answer st
            aliasesLimit x hx,
          respLoop_inspected_take bn q.name now msg.answer st aliasesLimit,
          ?_⟩
        intro bn' q' hbn hq' x hx
        have hbn' : bn = bn' := by
          injection hbn
        have hq'' : q = q' := by
          injection hq' with h1 h2
        subst hbn'
        subst hq''
        exact respLoop_dropLast_pass bn q.name now msg.answer st
          aliasesLimit x hx
      · have hE : PluginBlockNameResponse.Eval (some bn) st msg now =
            (Except.ok (none, st), []) := by
          simp [PluginBlockNameResponse.Eval, hmem, hq]
        rw [hE]
        refine ⟨by simp [aliasesLimit], by simp, by simp, ?_⟩
        intro bn' q' hbn hq' x hx
        injection hq' with h1 h2
        exact List.noConfusion h2

/-- C2 witness: on `sampleMsg` the walker submits exactly the two CNAME
records around the skipped A record, stops at the blocked second CNAME
before reaching the later CNAME, and the one non-final submitted record was
not blocked. -/
theorem claim_C2_witness :
    ((PluginBlockNameResponse.Eval (some sampleBn) sampleState sampleMsg 0).2).length ≤
      aliasesLimit ∧
    sampleBn.check sampleState (Answer.mk 1 5 "a.b.").target (some "x.") 0 =
      Except.ok ⟨false, none, sampleState, none⟩ :=
  ⟨(claim_C2_response_walk (some sampleBn) sampleState sampleMsg 0).1,
   (claim_C2_response_walk (some sampleBn) sampleState sampleMsg 0).2.2.2
     sampleBn ⟨"x."⟩ rfl rfl ⟨1, 5, "a.b."⟩ (by decide)⟩

theorem Init_ok_ret_none (malformed : String → Bool)
    (catalog : List (String × WeeklyRanges)) (bin lf fmt : String) :
    (PluginBlockName.Init malformed (Except.ok bin) catalog lf fmt).ret = none := by
  unfold PluginBlockName.Init
  dsimp only
  split <;> rfl

/-- C7: a rule line with a `@name` annotation whose name is absent from the
weekly-ranges catalog makes the loader log the unknown name with the line
number yet still insert the rule with no time gate; and a gate-free match
makes `check` reject at every instant. -/
theorem claim_C7_unknown_timerange (malformed : String → Bool)
    (catalog : List (String × WeeklyRanges)) :
    (∀ (pm : PatternMatcher) (logs : List String) (lineNo : Nat)
       (rawLine p t : String),
       strSplitChar '@' (strTrim rawLine) = [p, t] →
       (strTrim rawLine).data.isEmpty = false →
       ((strTrim rawLine).data.head? == some '#') = false →
       (strTrim t).data.isEmpty = false →
       catalogFind catalog (strTrim t) = none →
       malformed (strTrim p) = false →
       processLine malformed catalog (pm, logs) lineNo rawLine =
         (⟨pm.rules ++
             [⟨strLower (StripTrailingDot (strTrim p)), none, lineNo + 1⟩]⟩,
          logs ++ [timeRangeMsg (strTrim t) (1 + lineNo)])) ∧
    (∀ (bn : BlockedNames) (st : PluginsState) (q : String) (a : Option String)
       (now : Nat) (res : CheckResult),
       bn.check st q a now = Except.ok res →
       (bn.patternMatcher.Eval (strLower (StripTrailingDot q))).1 = true →
       (bn.patternMatcher.Eval (strLower (StripTrailingDot q))).2.2 = none →
       res.reject = true) := by
  constructor
  · intro pm logs lineNo rawLine p t hsplit hne hhash htne hcat hmal
    simp only [processLine, hne, hhash, Bool.or_self, Bool.false_eq_true,
      if_false, hsplit, htne, hcat, addStep, PatternMatcher.Add, hmal]
  · intro bn st q a now res hok hmatch hgate
    exact ((check_ok_char bn st q a now res hok).1).mpr
      ⟨hmatch, by rw [hgate]; rfl⟩

/-- C7 witness: the line `ads.example @nights` against an empty catalog is
inserted gate-free with the unknown-range log message, and the gate-free
rule of `sampleBn` rejects a matching name at instant 0. -/
theorem claim_C7_witness :
    (processLine (fun _ => false) [] (NewPatternPatcher, []) 4
        "ads.example @nights" =
      (⟨NewPatternPatcher.rules ++
          [⟨strLower (StripTrailingDot (strTrim "ads.example ")), none, 4 + 1⟩]⟩,
       [] ++ [timeRangeMsg (strTrim "nights") (1 + 4)])) ∧
    (CheckResult.mk true none
        { sampleState with action := PluginsActionReject,
                           returnCode := PluginsReturnCodeReject } none).reject =
      true :=
  ⟨(claim_C7_unknown_timerange (fun _ => false) []).1 NewPatternPatcher [] 4
     "ads.example @nights" "ads.example " "nights" (by decide) (by decide)
     (by decide) (by decide) (by decide) (by decide),
   (claim_C7_unknown_timerange (fun _ => false) []).2 sampleBn sampleState
     "foo.ads.example" none 0
     ⟨true, none,
      { sampleState with action := PluginsActionReject,
                         returnCode := PluginsReturnCodeReject }, none⟩
     (by rfl) (by decide) (by decide)⟩

/-- C8: the loader is best-effort — once the rule file has been read, Init
returns nil; blank and `#` lines are skipped; a line with more than one `@`
is logged as a syntax error and skipped; a line whose pattern fails
`PatternMatcher.Add` is logged and skipped; in every case loading continues
with the accumulated state untouched except for the log. -/
theorem claim_C8_loader_best_effort (malformed : String → Bool)
    (catalog : List (String × WeeklyRanges)) :
    (∀ (bin lf fmt : String),
       (PluginBlockName.Init malformed (Except.ok bin) catalog lf fmt).ret =
         none) ∧
    (∀ (pm : PatternMatcher) (logs : List String) (lineNo : Nat)
       (rawLine : String),
       ((strTrim rawLine).data.isEmpty = true ∨
        (strTrim rawLine).data.head? = some '#') →
       processLine malformed catalog (pm, logs) lineNo rawLine = (pm, logs)) ∧
    (∀ (pm : PatternMatcher) (logs : List String) (lineNo : Nat)
       (rawLine p1 p2 p3 : String) (ps : List String),
       strSplitChar '@' (strTrim rawLine) = p1 :: p2 :: p3 :: ps →
       (strTrim rawLine).data.isEmpty = false →
       ((strTrim rawLine).data.head? == some '#') = false →
       processLine malformed catalog (pm, logs) lineNo rawLine =
         (pm, logs ++ [unexpectedAtMsg (1 + lineNo)])) ∧
    (∀ (pm : PatternMatcher) (logs : List String) (lineNo : Nat)
       (rawLine p : String),
       strSplitChar '@' (strTrim rawLine) = [p] →
       (strTrim rawLine).data.isEmpty = false →
       ((strTrim rawLine).data.head? == some '#') = false →
       malformed p = true →
       processLine malformed catalog (pm, logs) lineNo rawLine =
         (pm, logs ++ [addErrMsg (lineNo + 1)])) := by
  refine ⟨Init_ok_ret_none malformed catalog, ?_, ?_, ?_⟩
  · intro pm logs lineNo rawLine h
    rcases h with h | h
    · simp [processLine, h]
    · simp [processLine, h]
  · intro pm logs lineNo rawLine p1 p2 p3 ps hsplit hne hhash
    simp only [processLine, hne, hhash, Bool.or_self, Bool.false_eq_true,
      if_false, hsplit]
  · intro pm logs lineNo rawLine p hsplit hne hhash hmal
    simp only [processLine, hne, hhash, Bool.or_self, Bool.false_eq_true,
      if_false, hsplit, addStep, PatternMatcher.Add, hmal, if_true]

/-- C8 witness: concrete lines of each kind — a comment, a double-`@`
line, and a pattern the (here: all-rejecting) `Add` refuses — are all
skipped, and a concrete Init run returns nil. -/
theorem claim_C8_witness :
    (PluginBlockName.Init (fun _ => true) (Except.ok "bad line") [] "" "").ret =
      none ∧
    processLine (fun _ => true) [] (NewPatternPatcher, []) 0 "# comment" =
      (NewPatternPatcher, []) ∧
    processLine (fun _ => true) [] (NewPatternPatcher, []) 3 "a@b@c" =
      (NewPatternPatcher, [] ++ [unexpectedAtMsg (1 + 3)]) ∧
    processLine (fun _ => true) [] (NewPatternPatcher, []) 7 "badpattern" =
      (NewPatternPatcher, [] ++ [addErrMsg (7 + 1)]) :=
  ⟨(claim_C8_loader_best_effort (fun _ => true) []).1 "bad line" "" "",
   (claim_C8_loader_best_effort (fun _ => true) []).2.1 NewPatternPatcher [] 0
     "# comment" (Or.inr (by decide)),
   (claim_C8_loader_best_effort (fun _ => true) []).2.2.1 NewPatternPatcher []
     3 "a@b@c" "a" "b" "c" [] (by decide) (by decide) (by decide),
   (claim_C8_loader_best_effort (fun _ => true) []).2.2.2 NewPatternPatcher []
     7 "badpattern" "badpattern" (by decide) (by decide) (by decide) (by decide)⟩

/-- C6 counterexample: with format `"xml"` (neither `tsv` nor `ltsv`) and a
log file configured, `PluginBlockName.Init` returns nil — no configuration
error is raised at construction time — and the first rejected query then
hits the fatal `dlog.Fatalf` at write time, contradicting both halves of
the claim. -/
theorem claim_C6_counterexample :
    (PluginBlockName.Init (fun _ => false) (Except.ok "ads.example") []
        "blocked.log" "xml").ret = none ∧
    (PluginBlockName.Init (fun _ => false) (Except.ok "ads.example") []
        "blocked.log" "xml").blockedNames = some sampleBnBadFormat ∧
    sampleBnBadFormat.check sampleState "ads.example" none 0 =
      Except.error () :=
  ⟨rfl, by decide, by rfl⟩

/-- C6 (amended): an unknown audit format string is not validated during
`PluginBlockName.Init`, which returns nil for every format; instead the
format field is copied verbatim, and the first query that is rejected while
a logger is configured reaches the formatter and triggers the fatal
`dlog.Fatalf` at write time. -/
theorem claim_C6_amended (malformed : String → Bool)
    (catalog : List (String × WeeklyRanges)) :
    (∀ (bin lf fmt : String),
       (PluginBlockName.Init malformed (Except.ok bin) catalog lf fmt).ret =
         none) ∧
    (∀ (bin fmt : String) (lf : String), lf.data.isEmpty = false →
       ∀ (bn : BlockedNames),
         (PluginBlockName.Init malformed (Except.ok bin) catalog lf
             fmt).blockedNames = some bn → bn.format = fmt) ∧
    (∀ (bn : BlockedNames) (st : PluginsState) (q : String) (a : Option String)
       (now : Nat),
       bn.logger.isSome = true → bn.format ≠ "tsv" → bn.format ≠ "ltsv" →
       rejectDecision (bn.patternMatcher.Eval (strLower (StripTrailingDot q)))
         now = true →
       bn.check st q a now = Except.error ()) := by
  refine ⟨Init_ok_ret_none malformed catalog, ?_, ?_⟩
  · intro bin fmt lf hlf bn h
    unfold PluginBlockName.Init at h
    dsimp only at h
    rw [hlf] at h
    simp only [Bool.false_eq_true, if_false] at h
    cases h
    rfl
  · intro bn st q a now hl hf1 hf2 hrej
    unfold BlockedNames.check BlockedNames.checkNormalized
    simp only [hrej, Bool.true_eq_false, if_false]
    cases hlog : bn.logger with
    | none =>
      rw [hlog] at hl
      exact Bool.noConfusion hl
    | some u =>
      unfold auditAndReturn
      rw [hlog]
      dsimp only
      rw [if_neg hf1, if_neg hf2]

/-- C6 witness for the amended claim: a concrete Init run with format
`"xml"` returns nil and copies the format, and the engine it builds dies at
write time on the first blocked query. -/
theorem claim_C6_witness :
    (PluginBlockName.Init (fun _ => false) (Except.ok "") [] "log" "xml").ret =
      none ∧
    sampleBnBadFormat.format = "xml" ∧
    sampleBnBadFormat.check sampleState "foo.ads.example" none 3 =
      Except.error () :=
  ⟨(claim_C6_amended (fun _ => false) []).1 "" "log" "xml",
   (claim_C6_amended (fun _ => false) []).2.1 "ads.example" "xml" "log"
     (by decide) sampleBnBadFormat (by decide),
   (claim_C6_amended (fun _ => false) []).2.2 sampleBnBadFormat sampleState
     "foo.ads.example" none 3 (by rfl) (by decide) (by decide) (by decide)⟩

example :
    (PatternMatcher.Eval ⟨[⟨"ads.example", none, 1⟩]⟩ "foo.ads.example").1 = true := by
  decide

example :
    (PatternMatcher.Eval ⟨[⟨"ads.example", none, 1⟩]⟩ "fooads.example").1 = false := by
  decide

example :
    (PatternMatcher.Eval ⟨[⟨"*.trk.*", none, 1⟩]⟩ "a.trk.net").1 = true := by
  decide

example : strLower (StripTrailingDot "BAD.Example.") = "bad.example" := by decide
